import Mathlib

/-!
Verification of the ra_chat conversational orchestration core.

The definitions below are a shallow embedding of the JavaScript sources:

* `src/app/routes/chat.jsx` — the orchestrator (`handleChatSession`,
  `handleChatRequest`, `handleHistoryRequest`, the tool-use loop);
* `src/app/services/openai.server.js` — the model gateway
  (`convertToOpenAIFormat`, `filterSystemContent`, `streamConversation`);
* `src/app/services/fallback-product-search.server.js` — the fallback
  catalog search (represented through the session environment).

The conversation store (`db.server.js`), the tool service
(`tool.server.js`) and the configuration module (`config.server.js`) are
not part of the provided sources; the few definitions standing in for
them are modelled from the specification and carry a doc comment saying
so.  JavaScript strings are Lean `String`s; JSON values handed to the
builtins `JSON.parse` / `JSON.stringify` are represented by their
serialized form, and the success of `JSON.parse` on provider-supplied
text is an explicit function of the environment.
-/

namespace RaChat

/-! ## Conversation store (external collaborator) -/

/-- A persisted turn row as stored by and read back from the
conversation store. -/
structure DbMessage where
  role : String
  content : String
deriving DecidableEq, Repr

/-- Modelled from the spec: `db.server.js` is not under `src/`.  Per §6
the Conversation Store is a durable append-only turn log exposing
`append(conversationId, role, content)` and
`read(conversationId) → ordered turns`. -/
structure Store where
  entries : List (String × DbMessage)
deriving DecidableEq, Repr

/-- Modelled from the spec: `saveMessage` of `db.server.js` appends one
turn row to the log of the given conversation. -/
def saveMessage (s : Store) (conversationId role content : String) : Store :=
  ⟨s.entries ++ [(conversationId, ⟨role, content⟩)]⟩

/-- Modelled from the spec: `getConversationHistory` of `db.server.js`
returns the rows of the given conversation, in insertion order. -/
def getConversationHistory (s : Store) (conversationId : String) : List DbMessage :=
  (s.entries.filter fun e => e.fst == conversationId).map Prod.snd

/-- The history-fetch endpoint (chat.jsx 55-69): it returns the stored
rows of the conversation exactly as `getConversationHistory` yields
them, with no further processing. -/
def handleHistoryRequest (s : Store) (conversationId : String) : List DbMessage :=
  getConversationHistory s conversationId

/-! ## Consecutive-duplicate removal (chat.jsx 233-242) -/

/-- One step of the duplicate-removal loop of `handleChatSession`
(chat.jsx 234-242): `dbMessages[i]` is kept exactly when its content or
role differs from `dbMessages[i-1]`; `prev` is always the original
previous element. -/
def dedupeFrom (prev : DbMessage) : List DbMessage → List DbMessage
  | [] => []
  | m :: rest =>
    if m.content ≠ prev.content ∨ m.role ≠ prev.role then m :: dedupeFrom m rest
    else dedupeFrom m rest

/-- The duplicate-removal pass of `handleChatSession` (chat.jsx
233-242): the first row is always kept (it has no predecessor). -/
def deduplicateMessages : List DbMessage → List DbMessage
  | [] => []
  | m :: rest => m :: dedupeFrom m rest

/-- Whether a turn list contains two adjacent rows with identical
role and content. -/
def hasAdjacentDup : List DbMessage → Bool
  | m1 :: m2 :: rest =>
    (m1.role == m2.role && m1.content == m2.content) || hasAdjacentDup (m2 :: rest)
  | _ => false

/-! ## Model gateway: normalization (openai.server.js 14-110) -/

/-- Whether a character pattern occurs inside a character list
(character-level model of JavaScript `s.includes(pat)`). -/
def containsSub (s pat : List Char) : Bool :=
  match s with
  | [] => pat.isEmpty
  | _ :: rest => pat.isPrefixOf s || containsSub rest pat

/-- JavaScript substring test `s.includes(pat)`. -/
def includesStr (s pat : String) : Bool := containsSub s.data pat.data

/-- Split a character list around the first occurrence of a pattern:
the part before it and the part after it, or `none` when the pattern
does not occur. -/
def splitFirst (s pat : List Char) : Option (List Char × List Char) :=
  match s with
  | [] => if pat.isEmpty then some ([], []) else none
  | c :: rest =>
    if pat.isPrefixOf (c :: rest) then some ([], (c :: rest).drop pat.length)
    else
      match splitFirst rest pat with
      | some (b, a) => some (c :: b, a)
      | none => none

/-- Fueled scan for `removeSpan`: repeatedly cut from the next
occurrence of the opening literal through the first following
occurrence of the closing literal; an opening literal with no closing
literal after it matches nothing and scanning stops. -/
def removeSpansFuel (opn close : List Char) : Nat → List Char → List Char
  | 0, s => s
  | fuel + 1, s =>
    match splitFirst s opn with
    | none => s
    | some (before, afterOpen) =>
      match splitFirst afterOpen close with
      | none => s
      | some (_, afterClose) => before ++ removeSpansFuel opn close fuel afterClose

/-- Model of one lazy global regex replace `/A[\s\S]*?B/g` as used by
`filterSystemContent` (openai.server.js 18-28): each occurrence of the
opening literal is removed together with everything up to and
including the first occurrence of the closing literal after it. -/
def removeSpan (opn close s : String) : String :=
  ⟨removeSpansFuel opn.data close.data (s.data.length + 1) s.data⟩

/-- Character-level model of JavaScript `s.trim()`: whitespace is
stripped from both ends. -/
def trimStr (s : String) : String :=
  ⟨((s.data.dropWhile Char.isWhitespace).reverse.dropWhile Char.isWhitespace).reverse⟩

/-- The opening/closing literal pairs of the replaces performed by
`filterSystemContent` (openai.server.js 18-28), in source order. -/
def reminderPatterns : List (String × String) :=
  [("<long_conversation_reminder>", "</long_conversation_reminder>"),
   ("Claude cares about", "even in these circumstances."),
   ("Claude never starts", "positive adjective."),
   ("Claude does not use emojis", "these circumstances."),
   ("Claude avoids the use", "communication."),
   ("Claude critically evaluates", "own opinion."),
   ("If Claude notices", "harmless thinking."),
   ("Claude provides honest", "in the moment."),
   ("Claude tries to maintain", "actual identity.")]

/-- The function filterSystemContent (openai.server.js 14-31): strips the
system-reminder spans and trims the result; falsy input yields the
empty string. -/
def filterSystemContent (text : String) : String :=
  if text == "" then ""
  else trimStr (reminderPatterns.foldl (fun acc p => removeSpan p.fst p.snd acc) text)

/-- One typed content block of a structured message content array. -/
structure ContentBlock where
  type : String
  /-- The text of the block; an absent or falsy `text` field is
  modelled as the empty string. -/
  text : String
deriving DecidableEq, Repr

/-- The shape of a message `content` field: a plain string, an array of
typed blocks, or null/undefined. -/
inductive MsgContent
  | str (s : String)
  | blocks (bs : List ContentBlock)
  | null
deriving DecidableEq, Repr

/-- A message as handled by `convertToOpenAIFormat`:
`hasToolCalls` models the presence of a truthy `tool_calls` field, and
`toolCallId` models `tool_call_id` (empty when absent). -/
structure ChatMessage where
  role : String
  content : MsgContent
  hasToolCalls : Bool
  toolCallId : String
deriving DecidableEq, Repr

/-- Model of `JSON.stringify(msg.content || '')` as fed to the
substring checks of the first filter (openai.server.js 42); string
escaping is elided, which is adequate for those checks. -/
def stringifyContent : MsgContent → String
  | .str s => "\"" ++ s ++ "\""
  | .blocks bs => "[" ++ String.intercalate ","
      (bs.map fun b =>
        "\x7b\"type\":\"" ++ b.type ++ "\",\"text\":\"" ++ b.text ++ "\"\x7d") ++ "]"
  | .null => "\"\""

/-- The first filter of `convertToOpenAIFormat` (openai.server.js
40-53): a message whose stringified content contains any of the system
patterns is dropped. -/
def systemContentFlag (msg : ChatMessage) : Bool :=
  let msgContent := stringifyContent msg.content
  includesStr msgContent "long_conversation_reminder" ||
  includesStr msgContent "Claude cares about" ||
  includesStr msgContent "Claude never starts" ||
  includesStr msgContent "Claude does not use" ||
  includesStr msgContent "Claude critically evaluates" ||
  includesStr msgContent "wellbeing"

/-- The map step of `convertToOpenAIFormat` (openai.server.js 54-101):
assistant messages with tool calls and tool-result messages pass
through; array content is reduced to the filtered, joined, trimmed
text of its text blocks; string content is filtered; null content
becomes the empty string. -/
def mapMessage (msg : ChatMessage) : ChatMessage :=
  if msg.role == "assistant" && msg.hasToolCalls then
    { role := msg.role, content := msg.content,
      hasToolCalls := msg.hasToolCalls, toolCallId := "" }
  else if msg.role == "tool" then
    { role := msg.role, content := msg.content,
      hasToolCalls := false, toolCallId := msg.toolCallId }
  else
    match msg.content with
    | .blocks bs =>
      let textBlocks := bs.filter fun b =>
        b.type == "text" && b.text != "" &&
        !(includesStr b.text "long_conversation_reminder") &&
        !(includesStr b.text "<")
      let textContent :=
        trimStr (String.intercalate "\n" (textBlocks.map fun b => filterSystemContent b.text))
      { role := msg.role, content := .str textContent,
        hasToolCalls := false, toolCallId := "" }
    | .str s =>
      { role := msg.role, content := .str (filterSystemContent s),
        hasToolCalls := false, toolCallId := "" }
    | .null =>
      { role := msg.role, content := .str "",
        hasToolCalls := false, toolCallId := "" }

/-- The JavaScript condition `msg.content && msg.content.length > 0` of
the final filter (openai.server.js 108): a non-empty string or a
non-empty array; null content is falsy. -/
def contentKeep : MsgContent → Bool
  | .str s => s != ""
  | .blocks bs => !bs.isEmpty
  | .null => false

/-- Whether a content value is empty: the empty string, the empty
array, or null. -/
def emptyContent : MsgContent → Bool
  | .str s => s == ""
  | .blocks bs => bs.isEmpty
  | .null => true

/-- The function convertToOpenAIFormat (openai.server.js 38-110): drop messages
with system-reminder content, map each remaining message to the wire
shape, then keep tool messages and assistant tool-call messages
unconditionally and every other message only with non-empty content. -/
def convertToOpenAIFormat (messages : List ChatMessage) : List ChatMessage :=
  ((messages.filter fun msg => !systemContentFlag msg).map mapMessage).filter
    fun msg =>
      if msg.role == "tool" || (msg.role == "assistant" && msg.hasToolCalls) then true
      else contentKeep msg.content

/-! ## Model gateway: streaming (openai.server.js 133-292) -/

/-- One element of `delta.tool_calls` in a provider stream chunk.
`none` stands for an absent or falsy field (the code tests
`toolCall.function?.name` and `toolCall.function?.arguments`
truthiness; appending an empty fragment is a no-op anyway). -/
structure ToolCallFragment where
  index : Nat
  id : Option String
  name : Option String
  arguments : Option String
deriving DecidableEq, Repr

/-- One chunk of the provider stream as consumed by the iterator loop
of `streamConversation` (openai.server.js 178-266). -/
structure StreamChunk where
  content : Option String
  toolCalls : List ToolCallFragment
  finishReason : Option String
deriving DecidableEq, Repr

/-- One entry of `toolCallsBuffer` (openai.server.js 155, 196-211). -/
structure BufferedCall where
  id : Option String
  name : String
  arguments : String
deriving DecidableEq, Repr

/-- The calls `streamConversation` makes into its stream handlers, in
emission order.  Tool-call arguments are carried in their serialized
form; the gate `JSON.parse` is the environment function `parseOk`. -/
inductive HandlerCall
  | onText (text : String)
  | onToolUse (id : Option String) (name : String) (arguments : String)
  | onMessage (role : String) (content : String)
deriving DecidableEq, Repr

/-- The message value built by `streamConversation` and returned to its
caller (openai.server.js 255-291). -/
structure FinalMessage where
  role : String
  content : String
  stopReason : String
deriving DecidableEq, Repr

/-- The mutable state of one `streamConversation` call: the
accumulated text, the tool-call buffer (keyed by fragment index, in
first-creation order), the handler calls made so far, and the final
message once one is built. -/
structure GatewayState where
  fullContent : String
  buffer : List (Nat × BufferedCall)
  calls : List HandlerCall
  finalMessage : Option FinalMessage
deriving DecidableEq, Repr

/-- Lookup of `toolCallsBuffer[index]`. -/
def lookupBuf (buf : List (Nat × BufferedCall)) (i : Nat) : Option BufferedCall :=
  (buf.find? fun e => e.fst == i).map Prod.snd

/-- In-place update of `toolCallsBuffer[index]`. -/
def updateBuf (buf : List (Nat × BufferedCall)) (i : Nat)
    (f : BufferedCall → BufferedCall) : List (Nat × BufferedCall) :=
  buf.map fun e => if e.fst == i then (e.fst, f e.snd) else e

/-- Accumulation of one `delta.tool_calls` fragment (openai.server.js
193-211): create the buffer entry on first sight of the index, then
overwrite the name if the fragment carries one and append the argument
text if the fragment carries any. -/
def applyFragment (buf : List (Nat × BufferedCall)) (tc : ToolCallFragment) :
    List (Nat × BufferedCall) :=
  let buf1 :=
    if (lookupBuf buf tc.index).isNone then
      buf ++ [(tc.index, ⟨tc.id, tc.name.getD "", ""⟩)]
    else buf
  let buf2 :=
    match tc.name with
    | some n => if n == "" then buf1 else updateBuf buf1 tc.index fun b => { b with name := n }
    | none => buf1
  match tc.arguments with
  | some a =>
    if a == "" then buf2
    else updateBuf buf2 tc.index fun b => { b with arguments := b.arguments ++ a }
  | none => buf2

/-- Processing of one stream chunk (openai.server.js 182-265): forward
a truthy content delta to `onText` and accumulate it, fold the
tool-call fragments into the buffer, then on `finish_reason =
tool_calls` emit `onToolUse` for every buffered call whose accumulated
arguments are non-empty and parse (`parseOk`), and on `finish_reason =
stop` build the final message from the accumulated text and emit it to
`onMessage`. -/
def processChunk (parseOk : String → Bool) (st : GatewayState) (chunk : StreamChunk) :
    GatewayState :=
  let st1 :=
    match chunk.content with
    | some c =>
      if c == "" then st
      else { st with fullContent := st.fullContent ++ c,
                     calls := st.calls ++ [HandlerCall.onText c] }
    | none => st
  let st2 := { st1 with buffer := chunk.toolCalls.foldl applyFragment st1.buffer }
  if chunk.finishReason == some "tool_calls" then
    { st2 with calls := st2.calls ++
        (((st2.buffer.map Prod.snd).filter fun b =>
            b.arguments != "" && parseOk b.arguments).map fun b =>
          HandlerCall.onToolUse b.id b.name b.arguments) }
  else if chunk.finishReason == some "stop" then
    { st2 with finalMessage := some ⟨"assistant", st2.fullContent, "end_turn"⟩,
               calls := st2.calls ++ [HandlerCall.onMessage "assistant" st2.fullContent] }
  else st2

/-- The iterator loop of `streamConversation` (openai.server.js
178-266): chunks are processed in order and the loop breaks once a
final message has been built (the `stop` branch ends with `break`). -/
def runChunks (parseOk : String → Bool) : GatewayState → List StreamChunk → GatewayState
  | st, [] => st
  | st, c :: rest =>
    let st1 := processChunk parseOk st c
    if st1.finalMessage.isSome then st1 else runChunks parseOk st1 rest

/-- The function streamConversation (openai.server.js 133-292) on a provider
stream that delivers the given chunk list: run the iterator loop, and
if the stream ended without an explicit `stop`, synthesize the final
message from the filtered accumulated text — without emitting it to
the handlers (openai.server.js 279-285). -/
def streamConversation (parseOk : String → Bool) (chunks : List StreamChunk) : GatewayState :=
  let st := runChunks parseOk ⟨"", [], [], none⟩ chunks
  match st.finalMessage with
  | some _ => st
  | none => { st with finalMessage := some ⟨"assistant", filterSystemContent st.fullContent, "end_turn"⟩ }

/-- Whether a handler call is a turn-complete (`onMessage`) emission. -/
def isMessageCall : HandlerCall → Bool
  | .onMessage _ _ => true
  | _ => false

/-- Whether a handler call is a tool-call (`onToolUse`) emission. -/
def isToolUseCall : HandlerCall → Bool
  | .onToolUse _ _ _ => true
  | _ => false

/-- The number of turn-complete (`onMessage`) emissions in a handler
call sequence. -/
def countOnMessage (calls : List HandlerCall) : Nat :=
  (calls.filter isMessageCall).length

/-- The number of tool-call (`onToolUse`) emissions in a handler call
sequence. -/
def countOnToolUse (calls : List HandlerCall) : Nat :=
  (calls.filter isToolUseCall).length

/-- Spec-side predicate: the provider stream carries an explicit
completion signal, i.e. some chunk has `finish_reason = stop`. -/
def reachesStop : List StreamChunk → Bool
  | [] => false
  | c :: rest => c.finishReason == some "stop" || reachesStop rest

/-! ## Orchestrator: data model (chat.jsx) -/

/-- One event sent to the client over the push channel
(`stream.sendMessage` in chat.jsx). -/
inductive Event
  | id (conversationId : String)
  | chunk (text : String)
  | toolUse (toolName : String) (toolInput : String)
  | products (products : List String)
  | messageComplete
  | endTurn
  | error (message : String)
deriving DecidableEq, Repr

/-- One block of a structured history turn, as built for tool results
(chat.jsx 356-366). -/
structure ToolResultBlock where
  type : String
  toolUseId : Option String
  content : String
deriving DecidableEq, Repr

/-- The content of one in-memory conversation turn: plain text or a
block array. -/
inductive HistContent
  | text (s : String)
  | blocks (bs : List ToolResultBlock)
deriving DecidableEq, Repr

/-- One in-memory conversation turn (`conversationHistory` entries). -/
structure HistMessage where
  role : String
  content : HistContent
deriving DecidableEq, Repr

/-- Model of `JSON.stringify` on a turn content as used before
persisting it (chat.jsx 324, 369); string escaping is elided. -/
def serializeHistContent : HistContent → String
  | .text s => "\"" ++ s ++ "\""
  | .blocks bs => "[" ++ String.intercalate ","
      (bs.map fun b =>
        "\x7b\"type\":\"" ++ b.type ++ "\",\"tool_use_id\":" ++
        (match b.toolUseId with
         | some i => "\"" ++ i ++ "\""
         | none => "null") ++
        ",\"content\":\"" ++ b.content ++ "\"\x7d") ++ "]"

/-- A tool descriptor as carried in `availableTools`; the JSON input
schema is carried in its serialized form. -/
structure ToolDescriptor where
  name : String
  description : String
  inputSchema : String
deriving DecidableEq, Repr

/-- The input schema of the fallback descriptor installed when MCP
yields no tools (chat.jsx 193-202). -/
def fallbackSchemaFull : String :=
  "\x7b\"type\":\"object\",\"properties\":\x7b\"query\":\x7b\"type\":\"string\",\"description\":\"Search query for products\"\x7d\x7d,\"required\":[\"query\"]\x7d"

/-- The input schema of the fallback descriptor installed when MCP
initialization throws (chat.jsx 212-219). -/
def fallbackSchemaShort : String :=
  "\x7b\"type\":\"object\",\"properties\":\x7b\"query\":\x7b\"type\":\"string\",\"description\":\"Search query\"\x7d\x7d,\"required\":[\"query\"]\x7d"

/-- The fallback catalog-search descriptor installed when the merged
MCP tool set is empty (chat.jsx 190-203). -/
def fallbackToolPrimary : ToolDescriptor :=
  ⟨"search_shop_catalog",
   "Search the store\x27s product catalog for air purifiers and related products. Use this when customers ask about available products, pricing, or features.",
   fallbackSchemaFull⟩

/-- The fallback catalog-search descriptor installed when MCP client
initialization throws (chat.jsx 210-220). -/
def fallbackToolSecondary : ToolDescriptor :=
  ⟨"search_shop_catalog",
   "Search the store\x27s product catalog for air purifiers and related products.",
   fallbackSchemaShort⟩

/-- The outcome of one external tool execution: a result payload (in
serialized form), a structured error object (`toolResult.error`), or a
thrown exception. -/
inductive ToolOutcome
  | success (content : String)
  | errorResult (errorType : String) (errorData : String)
  | thrown (message : String)
deriving DecidableEq, Repr

/-- Which execution path served a tool call. -/
inductive Backend
  | fallback
  | mcp
deriving DecidableEq, Repr

/-- A record of one actual contact with a tool backend. -/
structure BackendCall where
  backend : Backend
  shop : String
  toolName : String
  toolInput : String
deriving DecidableEq, Repr

/-- The behavior of the external collaborators of one session, as
functions of the embedding: the shop resolved by the app-proxy
authentication of the inbound request
(`authenticate.public.appProxy(request)`,
fallback-product-search.server.js 16 — a property of the request,
independent of the session's `shop` parameter), the fallback catalog
search (`searchProductsFallback`, applied to that request-authenticated
shop and the query), the MCP tool call (`mcpClient.callTool`), the
`JSON.parse`-or-raw reading of stored turn content (chat.jsx 246-251),
the emptiness test on a parsed product result (chat.jsx 424-426), the
instruction-augmented rewrite of an empty product result (chat.jsx
430-438), the side-channel product extraction of the tool service, and
`JSON.parse` success on buffered tool arguments (openai.server.js
237). -/
structure SessionEnv where
  requestShop : String
  fallbackSearch : String → String → ToolOutcome
  mcpCallTool : String → String → String → ToolOutcome
  parseStored : String → HistContent
  parsedProductsEmpty : String → Bool
  mergeEmptyInstruction : String → String
  extractProducts : String → List String
  parseOk : String → Bool

/-- The result of MCP client initialization attempts (chat.jsx
158-221): whether the constructor succeeded, and each server
connection result. -/
structure McpEnv where
  constructorOk : Bool
  storefront : Except String (List ToolDescriptor)
  customer : Except String (List ToolDescriptor)
deriving Repr

/-- The merged descriptor set contributed by the capability sources: a
failing source contributes zero tools. -/
def mergedTools (mcp : McpEnv) : List ToolDescriptor :=
  (match mcp.storefront with | .ok ts => ts | .error _ => []) ++
  (match mcp.customer with | .ok ts => ts | .error _ => [])

/-- The tool configuration a session starts with. -/
structure ToolSetup where
  availableTools : List ToolDescriptor
  useFallbackTools : Bool
  mcpPresent : Bool
deriving DecidableEq, Repr

/-- Tool discovery of `handleChatSession` (chat.jsx 154-221): a failed
storefront connection sets `useFallbackTools`; if the merged tool set
is empty the primary fallback descriptor is installed; if the MCP
client constructor throws, the secondary fallback descriptor is
installed and no MCP client exists. -/
def initTools (mcp : McpEnv) : ToolSetup :=
  if mcp.constructorOk then
    let fallbackAfterStorefront :=
      match mcp.storefront with | .ok _ => false | .error _ => true
    let tools := mergedTools mcp
    if tools.isEmpty then ⟨[fallbackToolPrimary], true, true⟩
    else ⟨tools, fallbackAfterStorefront, true⟩
  else ⟨[fallbackToolSecondary], true, false⟩

/-- The whole orchestrator-visible state of one chat session. -/
structure SessionState where
  shop : String
  conversationId : String
  useFallbackTools : Bool
  mcpPresent : Bool
  availableTools : List ToolDescriptor
  history : List HistMessage
  store : Store
  events : List Event
  productsToDisplay : List String
  toolIterationCount : Nat
  usedToolCalls : List String
  needsContinuation : Bool
  backendCalls : List BackendCall
deriving DecidableEq, Repr

/-! ## Orchestrator: the tool-use loop (chat.jsx 258-477) -/

/-- The loop cap of the session (chat.jsx 262). -/
def MAX_TOOL_ITERATIONS : Nat := 3

/-- The duplicate-call fingerprint
`toolUse.name + ":" + JSON.stringify(toolUse.input)` (chat.jsx 349);
inputs are carried in serialized form. -/
def toolCallKey (toolName toolInput : String) : String :=
  toolName ++ ":" ++ toolInput

/-- The instruction text of the synthesized duplicate-blocked tool
result (chat.jsx 363). -/
def dupBlockedText : String :=
  "This search was already performed with no results. Please inform the customer that this item is not available and offer to help with something else. Do NOT attempt to search again."

/-- The serialized payload of the duplicate-blocked tool result
(chat.jsx 361-364). -/
def dupBlockedJson : String :=
  "\x7b\"products\":[],\"message\":\"" ++ dupBlockedText ++ "\"\x7d"

/-- The synthesized duplicate-blocked tool-result turn (chat.jsx
356-366): a user turn carrying one `tool_result` block. -/
def duplicateBlockedMessage (toolUseId : Option String) : HistMessage :=
  ⟨"user", .blocks [⟨"tool_result", toolUseId, dupBlockedJson⟩]⟩

/-- The terminal fallback assistant text of the loop-cap branch
(chat.jsx 279, 286, 292). -/
def fallbackApologyText : String :=
  "I apologize, but I\x27m having trouble finding what you\x27re looking for in our catalog. Could you try rephrasing your question or asking about something else I can help with?"

/-- The structured error turn the tool service feeds back into
history.  Modelled from the spec: `tool.server.js` is not under
`src/`; per §4.1/§7 a tool failure is surfaced to the model as a
structured error turn carrying the error outcome. -/
def errorTurn (errorType errorData : String) (toolUseId : Option String) : HistMessage :=
  ⟨"user", .blocks [⟨"tool_result", toolUseId,
    "\x7b\"error\":\x7b\"type\":\"" ++ errorType ++ "\",\"data\":\"" ++ errorData ++ "\"\x7d\x7d"⟩]⟩

/-- Modelled from the spec: `tool.server.js`
(`createToolService().handleToolError`) is not under `src/`.  Per
§4.1/§7 it surfaces the structured error outcome to the model: the
error turn is appended to history and persisted, and the conversation
continues (nothing is raised, no terminal event is sent). -/
def handleToolError (errorType errorData : String) (toolUseId : Option String)
    (st : SessionState) : SessionState :=
  let turn := errorTurn errorType errorData toolUseId
  { st with history := st.history ++ [turn],
            store := saveMessage st.store st.conversationId "user"
              (serializeHistContent turn.content) }

/-- Modelled from the spec: `tool.server.js`
(`createToolService().handleToolSuccess`) is not under `src/`.  Per
§4.3 it appends the normalized tool-result outcome turn to history,
persists it, and appends any side-channel product payloads to the
per-session accumulator. -/
def handleToolSuccess (env : SessionEnv) (formattedText : String)
    (toolUseId : Option String) (st : SessionState) : SessionState :=
  let turn : HistMessage := ⟨"user", .blocks [⟨"tool_result", toolUseId, formattedText⟩]⟩
  { st with history := st.history ++ [turn],
            store := saveMessage st.store st.conversationId "user"
              (serializeHistContent turn.content),
            productsToDisplay := st.productsToDisplay ++ env.extractProducts formattedText }

/-- The result-formatting step of `onToolUse` (chat.jsx 410-443): the
result text, rewritten with the no-retry instruction when the call is
the catalog search and the parsed result has an empty products
array. -/
def formatToolResult (env : SessionEnv) (toolName resultText : String) : String :=
  if toolName == "search_shop_catalog" && env.parsedProductsEmpty resultText then
    env.mergeEmptyInstruction resultText
  else resultText

/-- The execution dispatch of `onToolUse` (chat.jsx 385-397): the
fallback search when fallback tools are active and the call is the
catalog search; the MCP client when one exists; otherwise a thrown
error.  The second component records which backend, if any, was
contacted and which shop that contact targeted:
`searchProductsFallback(request, query)` takes no shop argument — it
authenticates through the app proxy of the inbound request
(fallback-product-search.server.js 16) and therefore targets the
request-authenticated shop `env.requestShop`, while the MCP client was
constructed from the session shop (`hostUrl`, chat.jsx 151, 160) and
targets it. -/
def dispatchTool (env : SessionEnv) (useFallbackTools mcpPresent : Bool)
    (shop toolName toolInput : String) : ToolOutcome × Option BackendCall :=
  if useFallbackTools && toolName == "search_shop_catalog" then
    (env.fallbackSearch env.requestShop toolInput,
     some ⟨.fallback, env.requestShop, toolName, toolInput⟩)
  else if mcpPresent then
    (env.mcpCallTool shop toolName toolInput, some ⟨.mcp, shop, toolName, toolInput⟩)
  else (.thrown "No tool execution method available", none)

/-- One handler call of `streamConversation` applied to the session
state, following the handlers of chat.jsx 306-471: `onText` forwards a
chunk event; `onMessage` appends and persists the assistant turn,
flushes pending products, and sends `message_complete`; `onToolUse`
blocks duplicate fingerprints with a synthesized tool-result turn, and
otherwise counts the call, sends the `tool_use` event, executes the
tool and feeds the outcome back. -/
def applyHandlerCall (env : SessionEnv) (st : SessionState) : HandlerCall → SessionState
  | .onText t => { st with events := st.events ++ [Event.chunk t] }
  | .onMessage role content =>
    let st1 := { st with history := st.history ++ [HistMessage.mk role (HistContent.text content)],
                         store := saveMessage st.store st.conversationId role
                           (serializeHistContent (.text content)) }
    let st2 :=
      if st1.productsToDisplay.isEmpty then st1
      else { st1 with events := st1.events ++ [Event.products st1.productsToDisplay],
                      productsToDisplay := [] }
    { st2 with events := st2.events ++ [Event.messageComplete] }
  | .onToolUse toolUseId toolName toolInput =>
    if st.usedToolCalls.contains (toolCallKey toolName toolInput) then
      let turn := duplicateBlockedMessage toolUseId
      { st with history := st.history ++ [turn],
                store := saveMessage st.store st.conversationId "user"
                  (serializeHistContent turn.content),
                needsContinuation := true }
    else
      let st1 := { st with usedToolCalls := st.usedToolCalls ++ [toolCallKey toolName toolInput],
                           toolIterationCount := st.toolIterationCount + 1,
                           events := st.events ++ [Event.toolUse toolName toolInput] }
      let d := dispatchTool env st1.useFallbackTools st1.mcpPresent st1.shop toolName toolInput
      let st2 := { st1 with backendCalls := st1.backendCalls ++ d.snd.toList }
      match d.fst with
      | .errorResult t dat => handleToolError t dat toolUseId st2
      | .thrown m => handleToolError "execution_error" m toolUseId st2
      | .success c =>
        let formatted := formatToolResult env toolName c
        { handleToolSuccess env formatted toolUseId st2 with needsContinuation := true }

/-- One round of the session loop: the handler calls produced by one
`streamConversation` invocation on the provider chunk stream of that round,
applied to the session state in order (the handler return values are
ignored by the gateway, so the call sequence depends only on the
provider stream). -/
def runRound (env : SessionEnv) (st : SessionState) (round : List StreamChunk) :
    SessionState :=
  ((streamConversation env.parseOk round).calls).foldl (applyHandlerCall env) st

/-- The loop-cap branch (chat.jsx 273-297): push the fallback
assistant turn, persist it (as raw text, chat.jsx 283-287), send it as
a chunk, send `message_complete`, and break out of the loop. -/
def capFallback (st : SessionState) : SessionState :=
  { st with history := st.history ++ [⟨"assistant", .text fallbackApologyText⟩],
            store := saveMessage st.store st.conversationId "assistant" fallbackApologyText,
            events := st.events ++ [.chunk fallbackApologyText, .messageComplete] }

/-- The do/while tool loop of `handleChatSession` (chat.jsx 269-474):
each iteration resets `needsContinuation`, checks the cap, runs one
model round, and repeats while continuation is needed and the counter
is below the cap.  One provider chunk stream is consumed per
iteration; the finite `rounds` list models the observed provider
behavior. -/
def sessionLoop (env : SessionEnv) : List (List StreamChunk) → SessionState → SessionState
  | [], st => st
  | round :: rest, st =>
    let st0 := { st with needsContinuation := false }
    if MAX_TOOL_ITERATIONS ≤ st0.toolIterationCount then capFallback st0
    else
      let st1 := runRound env st0 round
      if st1.needsContinuation && st1.toolIterationCount < MAX_TOOL_ITERATIONS then
        sessionLoop env rest st1
      else st1

/-- The hardcoded shop fallback (chat.jsx 143-151): a missing or falsy
shop parameter is replaced by the fixed shop identifier. -/
def resolveShop : Option String → String
  | none => "restorair.myshopify.com"
  | some s => if s == "" then "restorair.myshopify.com" else s

/-- The session state `handleChatSession` has built just before
entering the tool loop (chat.jsx 139-264): shop resolved, tools
initialized, the identifier event sent, the user turn persisted, the
conversation read back, consecutive duplicates dropped, and rows
converted to in-memory turns (`JSON.parse` or raw, via
`parseStored`). -/
def initialSessionState (env : SessionEnv) (mcp : McpEnv) (shop : Option String)
    (conversationId userMessage : String) (priorStore : Store) : SessionState :=
  { shop := resolveShop shop
    conversationId := conversationId
    useFallbackTools := (initTools mcp).useFallbackTools
    mcpPresent := (initTools mcp).mcpPresent
    availableTools := (initTools mcp).availableTools
    history :=
      (deduplicateMessages
        (getConversationHistory (saveMessage priorStore conversationId "user" userMessage)
          conversationId)).map fun m => ⟨m.role, env.parseStored m.content⟩
    store := saveMessage priorStore conversationId "user" userMessage
    events := [.id conversationId]
    productsToDisplay := []
    toolIterationCount := 0
    usedToolCalls := []
    needsContinuation := false
    backendCalls := [] }

/-- The function handleChatSession (chat.jsx 131-484): build the initial session
state, run the tool loop over the observed provider rounds, and send
`end_turn`. -/
def handleChatSession (env : SessionEnv) (mcp : McpEnv) (shop : Option String)
    (conversationId userMessage : String) (priorStore : Store)
    (rounds : List (List StreamChunk)) : SessionState :=
  let st2 := sessionLoop env rounds
    (initialSessionState env mcp shop conversationId userMessage priorStore)
  { st2 with events := st2.events ++ [.endTurn] }

/-! ## Request surface (chat.jsx 74-126) -/

/-- The parsed request body of a submit-message request; absent fields
are `none`. -/
structure RequestBody where
  message : Option String
  conversationId : Option String
  promptType : Option String
  shop : Option String
deriving DecidableEq, Repr

/-- JavaScript truthiness of an optional string field. -/
def jsTruthyStr : Option String → Bool
  | none => false
  | some s => s != ""

/-- Modelled from the spec: `config.server.js` is not under `src/`;
per §7 a request missing its message is rejected with a terminal
validation-error response whose text comes from
`AppConfig.errorMessages.missingMessage`. -/
def missingMessageError : String := "Message is required"

/-- The response of the submit-message endpoint: a terminal error
response, or a push channel carrying the ordered events of the session. -/
inductive ChatResponse
  | errorResponse (status : Nat) (errorText : String)
  | sseStream (session : SessionState)
deriving Repr

/-- The function handleChatRequest (chat.jsx 74-126): reject a falsy message with
a 400 terminal response before any stream exists; otherwise resolve
the conversation id (`Date.now().toString()` is the `now` argument)
and open the push channel running `handleChatSession`. -/
def handleChatRequest (env : SessionEnv) (mcp : McpEnv) (body : RequestBody)
    (now : String) (priorStore : Store) (rounds : List (List StreamChunk)) :
    ChatResponse :=
  if !jsTruthyStr body.message then .errorResponse 400 missingMessageError
  else
    let conversationId :=
      match body.conversationId with
      | some c => if c == "" then now else c
      | none => now
    .sseStream (handleChatSession env mcp body.shop conversationId
      (body.message.getD "") priorStore rounds)

/-! ## Observables and invariants of the session step relation -/

/-- The fingerprint of a recorded backend call. -/
def keyOf (c : BackendCall) : String := toolCallKey c.toolName c.toolInput

/-- What one step (or any composition of steps) of the session does to
the guard-relevant state: the shop and tool configuration are fixed,
events and the fingerprint set only grow, the invocation counter is
bumped at least once per recorded backend call, and every newly
recorded backend call targets the session shop when it went through
the MCP client and the request-authenticated shop when it went through
the fallback search, and carries a fingerprint that was fresh before
the step and registered after it — with the new fingerprints pairwise
distinct. -/
def StepOk (env : SessionEnv) (st st' : SessionState) : Prop :=
  st'.shop = st.shop ∧
  st'.useFallbackTools = st.useFallbackTools ∧
  st'.mcpPresent = st.mcpPresent ∧
  st.toolIterationCount ≤ st'.toolIterationCount ∧
  (∃ evs, st'.events = st.events ++ evs) ∧
  (∃ used, st'.usedToolCalls = st.usedToolCalls ++ used) ∧
  (∃ calls, st'.backendCalls = st.backendCalls ++ calls ∧
    st.toolIterationCount + calls.length ≤ st'.toolIterationCount ∧
    (calls.map keyOf).Nodup ∧
    ∀ c ∈ calls,
      (c.backend = Backend.mcp → c.shop = st.shop) ∧
      (c.backend = Backend.fallback → c.shop = env.requestShop) ∧
      keyOf c ∈ st'.usedToolCalls ∧ keyOf c ∉ st.usedToolCalls)

/-! ## Sample inputs for concrete evaluations -/

/-- A concrete session environment: the inbound request authenticates
as the default shop, the fallback search succeeds with a fixed
payload, MCP tool calls succeed, stored rows read back as raw text, no
product result parses as empty, and every buffered tool argument
parses. -/
def sampleEnv : SessionEnv :=
  { requestShop := "restorair.myshopify.com"
    fallbackSearch := fun _ _ => .success "catalog result"
    mcpCallTool := fun _ _ _ => .success "mcp result"
    parseStored := fun s => .text s
    parsedProductsEmpty := fun _ => false
    mergeEmptyInstruction := fun s => s
    extractProducts := fun _ => []
    parseOk := fun _ => true }

/-- A concrete session environment whose MCP tool calls throw. -/
def sampleEnvThrowing : SessionEnv :=
  { sampleEnv with mcpCallTool := fun _ _ _ => .thrown "network failure" }

/-- A concrete session environment whose inbound request authenticates
as a shop other than the hardcoded default. -/
def sampleEnvOther : SessionEnv :=
  { sampleEnv with requestShop := "other-shop.myshopify.com" }

/-- A concrete MCP initialization result where both capability sources
fail discovery. -/
def sampleMcpDown : McpEnv :=
  ⟨true, .error "connection refused", .error "connection refused"⟩

/-- A provider round that requests one `search_shop_catalog` call with
the given serialized argument payload. -/
def sampleToolRound (arg : String) : List StreamChunk :=
  [⟨none, [⟨0, some "call_1", some "search_shop_catalog", some arg⟩], some "tool_calls"⟩]

/-- A concrete session in which the model requests the catalog-search
tool with three distinct inputs, one per round: every request executes,
so the single loop counter reaches its cap. -/
def sampleCapRun : SessionState :=
  handleChatSession sampleEnv sampleMcpDown none "conv1" "hello" ⟨[]⟩
    [sampleToolRound "a", sampleToolRound "b", sampleToolRound "c"]

/-- A concrete session without a shop parameter whose request
authenticates as `other-shop.myshopify.com` and whose model requests
one fallback catalog search: the session shop is the hardcoded
default, yet the executed search targets the request-authenticated
shop. -/
def sampleShopRun : SessionState :=
  handleChatSession sampleEnvOther sampleMcpDown none "conv1" "hello" ⟨[]⟩
    [sampleToolRound "a"]

/-- A concrete session state used to exercise single handler steps. -/
def sampleState : SessionState :=
  { shop := "restorair.myshopify.com"
    conversationId := "conv1"
    useFallbackTools := false
    mcpPresent := false
    availableTools := []
    history := []
    store := ⟨[]⟩
    events := [.id "conv1"]
    productsToDisplay := []
    toolIterationCount := 0
    usedToolCalls := []
    needsContinuation := false
    backendCalls := [] }

/-! ## Lemmas: consecutive-duplicate removal -/

lemma dedupeFrom_noAdjacent :
    ∀ (l : List DbMessage) (prev : DbMessage),
      hasAdjacentDup (prev :: dedupeFrom prev l) = false := by
  intro l
  induction l with
  | nil => intro prev; rfl
  | cons m rest ih =>
    intro prev
    by_cases h : m.content ≠ prev.content ∨ m.role ≠ prev.role
    · simp only [dedupeFrom, if_pos h, hasAdjacentDup]
      rw [ih m]
      rcases h with h | h
      · have hc : (prev.content == m.content) = false :=
          beq_eq_false_iff_ne.mpr fun he => h he.symm
        simp [hc]
      · have hr : (prev.role == m.role) = false :=
          beq_eq_false_iff_ne.mpr fun he => h he.symm
        simp [hr]
    · push_neg at h
      have hpm : prev = m := by
        obtain ⟨hc, hr⟩ := h
        cases prev
        cases m
        simp_all
      have h' : ¬(m.content ≠ prev.content ∨ m.role ≠ prev.role) := by
        push_neg
        exact h
      simp only [dedupeFrom, if_neg h']
      rw [hpm]
      exact ih m

/-- C4 (amended): on the chat-session read path, history read back
from the store and passed through the duplicate-removal pass never
contains two adjacent turns with identical role and content.  (The
history-fetch endpoint returns the rows verbatim; see the
counterexample.) -/
theorem c4_session_read_no_adjacent_dup (s : Store) (conversationId : String) :
    hasAdjacentDup (deduplicateMessages (getConversationHistory s conversationId)) = false := by
  cases h : getConversationHistory s conversationId with
  | nil => rfl
  | cons m rest =>
    simp only [deduplicateMessages]
    exact dedupeFrom_noAdjacent rest m

/-- C4 counterexample: the history-fetch endpoint
(`handleHistoryRequest`) performs no de-duplication, so reading back a
conversation whose log holds two identical adjacent rows yields two
adjacent turns with identical role and content, refuting the claim for
that read path. -/
theorem c4_counterexample :
    hasAdjacentDup
      (handleHistoryRequest ⟨[("c1", ⟨"user", "a"⟩), ("c1", ⟨"user", "a"⟩)]⟩ "c1") = true := by
  decide

/-! ## Lemmas: request validation -/

/-- C8: a submit-message request whose body lacks a truthy message is
rejected with the terminal 400 validation response; no push channel is
opened and no event — in particular no identifier event — is emitted
(the `errorResponse` constructor carries no event stream). -/
theorem c8_missing_message_rejected (env : SessionEnv) (mcp : McpEnv)
    (body : RequestBody) (now : String) (priorStore : Store)
    (rounds : List (List StreamChunk))
    (h : jsTruthyStr body.message = false) :
    handleChatRequest env mcp body now priorStore rounds =
      .errorResponse 400 missingMessageError := by
  simp [handleChatRequest, h]

theorem c8_missing_message_rejected_witness :
    jsTruthyStr (none : Option String) = false ∧
    handleChatRequest sampleEnv sampleMcpDown ⟨none, none, none, none⟩ "1" ⟨[]⟩ [] =
      .errorResponse 400 missingMessageError :=
  ⟨by decide,
   c8_missing_message_rejected sampleEnv sampleMcpDown ⟨none, none, none, none⟩ "1" ⟨[]⟩ []
     (by decide)⟩

/-! ## Lemmas: gateway completion emission -/

lemma countOnMessage_append (l1 l2 : List HandlerCall) :
    countOnMessage (l1 ++ l2) = countOnMessage l1 + countOnMessage l2 := by
  simp [countOnMessage, List.filter_append]

lemma countOnMessage_toolUse_map (l : List BufferedCall) :
    countOnMessage (l.map fun b => HandlerCall.onToolUse b.id b.name b.arguments) = 0 := by
  induction l with
  | nil => rfl
  | cons b rest ih => simp [countOnMessage, isMessageCall, ih]

lemma countOnMessage_onText (t : String) : countOnMessage [HandlerCall.onText t] = 0 := rfl

lemma countOnMessage_onMessage (r c : String) :
    countOnMessage [HandlerCall.onMessage r c] = 1 := rfl

lemma processChunk_no_stop (pk : String → Bool) (st : GatewayState) (c : StreamChunk)
    (h : c.finishReason ≠ some "stop") :
    (processChunk pk st c).finalMessage = st.finalMessage ∧
    countOnMessage (processChunk pk st c).calls = countOnMessage st.calls := by
  have hb : (c.finishReason == some "stop") = false := beq_eq_false_iff_ne.mpr h
  simp only [processChunk, hb]
  rcases c with ⟨cont, tcs, fin⟩
  rcases cont with _ | s
  · simp only
    split
    · exact ⟨rfl, by
        simp only [countOnMessage_append, countOnMessage_toolUse_map, Nat.add_zero]⟩
    · simp
  · by_cases hs : s = ""
    · simp only [hs, beq_self_eq_true, if_pos]
      split
      · exact ⟨rfl, by
          simp only [countOnMessage_append, countOnMessage_toolUse_map, Nat.add_zero]⟩
      · simp
    · have hs' : (s == "") = false := beq_eq_false_iff_ne.mpr hs
      simp only [hs', Bool.false_eq_true, if_false]
      split
      · exact ⟨rfl, by
          simp only [countOnMessage_append, countOnMessage_toolUse_map,
            countOnMessage_onText, Nat.add_zero]⟩
      · exact ⟨rfl, by
          simp only [countOnMessage_append, countOnMessage_onText, Nat.add_zero]⟩

lemma processChunk_stop (pk : String → Bool) (st : GatewayState) (c : StreamChunk)
    (h : c.finishReason = some "stop") :
    (processChunk pk st c).finalMessage.isSome = true ∧
    countOnMessage (processChunk pk st c).calls = countOnMessage st.calls + 1 := by
  have hb : (c.finishReason == some "tool_calls") = false := by
    rw [h]
    decide
  have hb2 : (c.finishReason == some "stop") = true := by
    rw [h]
    decide
  simp only [processChunk, hb, hb2, Bool.false_eq_true, if_false, if_true]
  rcases c with ⟨cont, tcs, fin⟩
  rcases cont with _ | s
  · exact ⟨rfl, by
      simp only [countOnMessage_append, countOnMessage_onMessage]⟩
  · by_cases hs : s = ""
    · simp only [hs, beq_self_eq_true, if_pos]
      exact ⟨rfl, by
        simp only [countOnMessage_append, countOnMessage_onMessage]⟩
    · have hs' : (s == "") = false := beq_eq_false_iff_ne.mpr hs
      simp only [hs', Bool.false_eq_true, if_false]
      exact ⟨rfl, by
        simp only [countOnMessage_append, countOnMessage_onMessage,
          countOnMessage_onText, Nat.add_zero]⟩

lemma runChunks_spec (pk : String → Bool) :
    ∀ (chunks : List StreamChunk) (st : GatewayState), st.finalMessage = none →
      countOnMessage (runChunks pk st chunks).calls =
        countOnMessage st.calls + (if reachesStop chunks then 1 else 0) ∧
      ((runChunks pk st chunks).finalMessage.isSome ↔ reachesStop chunks = true) := by
  intro chunks
  induction chunks with
  | nil =>
    intro st hst
    simp [runChunks, reachesStop, hst]
  | cons c rest ih =>
    intro st hst
    by_cases h : c.finishReason = some "stop"
    · obtain ⟨h1, h2⟩ := processChunk_stop pk st c h
      have hr : reachesStop (c :: rest) = true := by
        simp [reachesStop, h]
      simp only [runChunks, h1, if_pos rfl, hr]
      constructor
      · simp [h2]
      · simp [h1]
    · obtain ⟨h1, h2⟩ := processChunk_no_stop pk st c h
      have hnone : (processChunk pk st c).finalMessage = none := by rw [h1, hst]
      have hr : reachesStop (c :: rest) = reachesStop rest := by
        have : (c.finishReason == some "stop") = false := beq_eq_false_iff_ne.mpr h
        simp [reachesStop, this]
      obtain ⟨ih1, ih2⟩ := ih (processChunk pk st c) hnone
      simp only [runChunks, hnone, Option.isSome_none, Bool.false_eq_true, if_false, hr]
      constructor
      · rw [ih1, h2]
      · exact ih2

/-- C2 (amended): each `streamConversation` call emits at most one
turn-complete (`onMessage`) event — exactly one when the provider
stream carries an explicit `stop` completion signal, and none
otherwise; when the stream ends without the signal, a completion
message is synthesized from the accumulated text and returned to the
caller, but it is not emitted to the handlers. -/
theorem c2_completion_emission (pk : String → Bool) (chunks : List StreamChunk) :
    countOnMessage (streamConversation pk chunks).calls ≤ 1 ∧
    (countOnMessage (streamConversation pk chunks).calls = 1 ↔ reachesStop chunks = true) ∧
    (streamConversation pk chunks).finalMessage.isSome = true := by
  obtain ⟨h1, h2⟩ := runChunks_spec pk chunks ⟨"", [], [], none⟩ rfl
  have h1' : countOnMessage (runChunks pk ⟨"", [], [], none⟩ chunks).calls =
      if reachesStop chunks = true then 1 else 0 := by
    simpa [countOnMessage] using h1
  cases hfm : (runChunks pk ⟨"", [], [], none⟩ chunks).finalMessage with
  | some fm =>
    have hs : streamConversation pk chunks = runChunks pk ⟨"", [], [], none⟩ chunks := by
      simp only [streamConversation]
      rw [hfm]
    refine ⟨?_, ?_, ?_⟩
    · rw [hs, h1']
      split <;> omega
    · rw [hs, h1']
      by_cases hr : reachesStop chunks = true
      · simp [hr]
      · simp [hr]
    · rw [hs, hfm]
      rfl
  | none =>
    have hs : streamConversation pk chunks =
        { runChunks pk ⟨"", [], [], none⟩ chunks with
          finalMessage := some ⟨"assistant",
            filterSystemContent (runChunks pk ⟨"", [], [], none⟩ chunks).fullContent,
            "end_turn"⟩ } := by
      simp only [streamConversation]
      rw [hfm]
    have hcalls : (streamConversation pk chunks).calls =
        (runChunks pk ⟨"", [], [], none⟩ chunks).calls := by
      rw [hs]
    refine ⟨?_, ?_, ?_⟩
    · rw [hcalls, h1']
      split <;> omega
    · rw [hcalls, h1']
      by_cases hr : reachesStop chunks = true
      · simp [hr]
      · simp [hr]
    · rw [hs]
      rfl

/-- C2 counterexample: a provider stream that ends immediately without
a completion signal produces zero `onMessage` emissions, refuting the
claim that every call emits exactly one and that the synthesized
completion is emitted. -/
theorem c2_counterexample :
    ¬ countOnMessage (streamConversation (fun _ => true) []).calls = 1 := by
  decide

/-! ## Lemmas: normalization -/

/-- C5: `convertToOpenAIFormat` never emits a message with empty
content, except tool-result messages (role `tool`) and assistant
messages carrying tool calls, which may pass through with empty or
null content. -/
theorem c5_normalize_nonempty (messages : List ChatMessage) (m : ChatMessage)
    (hm : m ∈ convertToOpenAIFormat messages)
    (h1 : m.role ≠ "tool")
    (h2 : ¬(m.role = "assistant" ∧ m.hasToolCalls = true)) :
    emptyContent m.content = false := by
  have hcond : (m.role == "tool" || (m.role == "assistant" && m.hasToolCalls)) = false := by
    have ht : (m.role == "tool") = false := beq_eq_false_iff_ne.mpr h1
    cases hr : (m.role == "assistant") with
    | false => simp [ht, hr]
    | true =>
      have hra : m.role = "assistant" := by simpa using hr
      have hb : m.hasToolCalls = false := by
        cases hb : m.hasToolCalls with
        | false => rfl
        | true => exact absurd ⟨hra, hb⟩ h2
      simp [ht, hr, hb]
  unfold convertToOpenAIFormat at hm
  obtain ⟨-, hp⟩ := List.mem_filter.mp hm
  rw [hcond] at hp
  simp only [Bool.false_eq_true, if_false] at hp
  cases hc : m.content with
  | str s =>
    rw [hc] at hp
    simp only [contentKeep] at hp
    simp only [emptyContent]
    simpa using hp
  | blocks bs =>
    rw [hc] at hp
    simp only [contentKeep] at hp
    simp only [emptyContent]
    simpa using hp
  | null =>
    rw [hc] at hp
    simp [contentKeep] at hp

theorem c5_normalize_nonempty_witness :
    (⟨"user", .str "hi", false, ""⟩ : ChatMessage) ∈
      convertToOpenAIFormat [⟨"user", .str "hi", false, ""⟩] ∧
    emptyContent (MsgContent.str "hi") = false :=
  ⟨by decide,
   c5_normalize_nonempty [⟨"user", .str "hi", false, ""⟩] ⟨"user", .str "hi", false, ""⟩
     (by decide) (by decide) (by decide)⟩

/-! ## Lemmas: fallback tool descriptor -/

/-- C7: when the merged descriptor set is empty after all capability
sources are tried (including the case where MCP initialization itself
throws), exactly one built-in fallback descriptor — the catalog-search
tool `search_shop_catalog` — is installed as the available tool set,
fallback tools are active, and a call to that tool resolves through
the fallback execution path. -/
theorem c7_fallback_descriptor (mcp : McpEnv) (env : SessionEnv)
    (shop toolInput : String)
    (h : mcp.constructorOk = false ∨ mergedTools mcp = []) :
    (∃ d, (initTools mcp).availableTools = [d] ∧ d.name = "search_shop_catalog") ∧
    (initTools mcp).useFallbackTools = true ∧
    dispatchTool env (initTools mcp).useFallbackTools (initTools mcp).mcpPresent
        shop "search_shop_catalog" toolInput =
      (env.fallbackSearch env.requestShop toolInput,
       some ⟨.fallback, env.requestShop, "search_shop_catalog", toolInput⟩) := by
  have hsetup : (initTools mcp).availableTools = [fallbackToolPrimary] ∨
      (initTools mcp).availableTools = [fallbackToolSecondary] := by
    cases hok : mcp.constructorOk with
    | false => right; simp [initTools, hok]
    | true =>
      left
      rcases h with h | h
      · rw [hok] at h
        exact absurd h (by decide)
      · simp [initTools, hok, h]
  have hfb : (initTools mcp).useFallbackTools = true := by
    cases hok : mcp.constructorOk with
    | false => simp [initTools, hok]
    | true =>
      rcases h with h | h
      · rw [hok] at h
        exact absurd h (by decide)
      · simp [initTools, hok, h]
  refine ⟨?_, hfb, ?_⟩
  · rcases hsetup with h' | h'
    · exact ⟨fallbackToolPrimary, h', rfl⟩
    · exact ⟨fallbackToolSecondary, h', rfl⟩
  · rw [hfb]
    simp [dispatchTool]

theorem c7_fallback_descriptor_witness :
    (sampleMcpDown.constructorOk = false ∨ mergedTools sampleMcpDown = []) ∧
    ((∃ d, (initTools sampleMcpDown).availableTools = [d] ∧
        d.name = "search_shop_catalog") ∧
     (initTools sampleMcpDown).useFallbackTools = true ∧
     dispatchTool sampleEnv (initTools sampleMcpDown).useFallbackTools
         (initTools sampleMcpDown).mcpPresent "s1.example.com" "search_shop_catalog" "q" =
       (sampleEnv.fallbackSearch sampleEnv.requestShop "q",
        some ⟨.fallback, sampleEnv.requestShop, "search_shop_catalog", "q"⟩)) :=
  ⟨Or.inr (by decide),
   c7_fallback_descriptor sampleMcpDown sampleEnv "s1.example.com" "q" (Or.inr (by decide))⟩

/-! ## Lemmas: session step bookkeeping -/

@[simp] lemma handleToolError_shop (t d : String) (i : Option String) (st : SessionState) :
    (handleToolError t d i st).shop = st.shop := rfl

@[simp] lemma handleToolError_useFallbackTools (t d : String) (i : Option String)
    (st : SessionState) : (handleToolError t d i st).useFallbackTools = st.useFallbackTools := rfl

@[simp] lemma handleToolError_mcpPresent (t d : String) (i : Option String)
    (st : SessionState) : (handleToolError t d i st).mcpPresent = st.mcpPresent := rfl

@[simp] lemma handleToolError_events (t d : String) (i : Option String) (st : SessionState) :
    (handleToolError t d i st).events = st.events := rfl

@[simp] lemma handleToolError_count (t d : String) (i : Option String) (st : SessionState) :
    (handleToolError t d i st).toolIterationCount = st.toolIterationCount := rfl

@[simp] lemma handleToolError_used (t d : String) (i : Option String) (st : SessionState) :
    (handleToolError t d i st).usedToolCalls = st.usedToolCalls := rfl

@[simp] lemma handleToolError_backendCalls (t d : String) (i : Option String)
    (st : SessionState) : (handleToolError t d i st).backendCalls = st.backendCalls := rfl

@[simp] lemma handleToolError_needsContinuation (t d : String) (i : Option String)
    (st : SessionState) : (handleToolError t d i st).needsContinuation = st.needsContinuation := rfl

@[simp] lemma handleToolError_history (t d : String) (i : Option String) (st : SessionState) :
    (handleToolError t d i st).history = st.history ++ [errorTurn t d i] := rfl

@[simp] lemma handleToolSuccess_shop (env : SessionEnv) (f : String) (i : Option String)
    (st : SessionState) : (handleToolSuccess env f i st).shop = st.shop := rfl

@[simp] lemma handleToolSuccess_useFallbackTools (env : SessionEnv) (f : String)
    (i : Option String) (st : SessionState) :
    (handleToolSuccess env f i st).useFallbackTools = st.useFallbackTools := rfl

@[simp] lemma handleToolSuccess_mcpPresent (env : SessionEnv) (f : String)
    (i : Option String) (st : SessionState) :
    (handleToolSuccess env f i st).mcpPresent = st.mcpPresent := rfl

@[simp] lemma handleToolSuccess_events (env : SessionEnv) (f : String) (i : Option String)
    (st : SessionState) : (handleToolSuccess env f i st).events = st.events := rfl

@[simp] lemma handleToolSuccess_count (env : SessionEnv) (f : String) (i : Option String)
    (st : SessionState) :
    (handleToolSuccess env f i st).toolIterationCount = st.toolIterationCount := rfl

@[simp] lemma handleToolSuccess_used (env : SessionEnv) (f : String) (i : Option String)
    (st : SessionState) : (handleToolSuccess env f i st).usedToolCalls = st.usedToolCalls := rfl

@[simp] lemma handleToolSuccess_backendCalls (env : SessionEnv) (f : String)
    (i : Option String) (st : SessionState) :
    (handleToolSuccess env f i st).backendCalls = st.backendCalls := rfl

@[simp] lemma capFallback_shop (st : SessionState) : (capFallback st).shop = st.shop := rfl

@[simp] lemma capFallback_useFallbackTools (st : SessionState) :
    (capFallback st).useFallbackTools = st.useFallbackTools := rfl

@[simp] lemma capFallback_mcpPresent (st : SessionState) :
    (capFallback st).mcpPresent = st.mcpPresent := rfl

@[simp] lemma capFallback_count (st : SessionState) :
    (capFallback st).toolIterationCount = st.toolIterationCount := rfl

@[simp] lemma capFallback_used (st : SessionState) :
    (capFallback st).usedToolCalls = st.usedToolCalls := rfl

@[simp] lemma capFallback_backendCalls (st : SessionState) :
    (capFallback st).backendCalls = st.backendCalls := rfl

@[simp] lemma capFallback_events (st : SessionState) :
    (capFallback st).events =
      st.events ++ [Event.chunk fallbackApologyText, Event.messageComplete] := rfl

lemma dispatchTool_call_spec (env : SessionEnv) (u m : Bool) (shop n i : String) :
    ∀ c ∈ (dispatchTool env u m shop n i).snd.toList,
      (c.backend = Backend.mcp → c.shop = shop) ∧
      (c.backend = Backend.fallback → c.shop = env.requestShop) ∧
      keyOf c = toolCallKey n i := by
  unfold dispatchTool
  split
  · intro c hc
    simp only [Option.toList_some, List.mem_singleton] at hc
    subst hc
    exact ⟨fun h => Backend.noConfusion h, fun _ => rfl, rfl⟩
  · split
    · intro c hc
      simp only [Option.toList_some, List.mem_singleton] at hc
      subst hc
      exact ⟨fun _ => rfl, fun h => Backend.noConfusion h, rfl⟩
    · intro c hc
      simp at hc

lemma stepOk_refl (env : SessionEnv) (st : SessionState) : StepOk env st st :=
  ⟨rfl, rfl, rfl, Nat.le_refl _,
   ⟨[], (List.append_nil _).symm⟩,
   ⟨[], (List.append_nil _).symm⟩,
   ⟨[], (List.append_nil _).symm, by simp, by simp, by simp⟩⟩

lemma stepOk_trans {env : SessionEnv} {a b c : SessionState}
    (h1 : StepOk env a b) (h2 : StepOk env b c) : StepOk env a c := by
  obtain ⟨hs1, hf1, hm1, hc1, ⟨e1, he1⟩, ⟨u1, hu1⟩, ⟨b1, hb1, hlen1, hnd1, hall1⟩⟩ := h1
  obtain ⟨hs2, hf2, hm2, hc2, ⟨e2, he2⟩, ⟨u2, hu2⟩, ⟨b2, hb2, hlen2, hnd2, hall2⟩⟩ := h2
  refine ⟨hs2.trans hs1, hf2.trans hf1, hm2.trans hm1, hc1.trans hc2,
    ⟨e1 ++ e2, by rw [he2, he1, List.append_assoc]⟩,
    ⟨u1 ++ u2, by rw [hu2, hu1, List.append_assoc]⟩,
    ⟨b1 ++ b2, by rw [hb2, hb1, List.append_assoc], ?_, ?_, ?_⟩⟩
  · rw [List.length_append]
    omega
  · rw [List.map_append]
    refine List.nodup_append.mpr ⟨hnd1, hnd2, ?_⟩
    intro k hk1 hk2
    obtain ⟨c1, hc1m, hkc1⟩ := List.mem_map.mp hk1
    obtain ⟨c2, hc2m, hkc2⟩ := List.mem_map.mp hk2
    obtain ⟨-, -, hin1, -⟩ := hall1 c1 hc1m
    obtain ⟨-, -, -, hnotin2⟩ := hall2 c2 hc2m
    rw [hkc1] at hin1
    rw [hkc2] at hnotin2
    exact hnotin2 hin1
  · intro x hx
    rcases List.mem_append.mp hx with h | h
    · obtain ⟨hmcp, hfb, hin, hnotin⟩ := hall1 x h
      refine ⟨hmcp, hfb, ?_, hnotin⟩
      rw [hu2]
      exact List.mem_append_left _ hin
    · obtain ⟨hmcp, hfb, hin, hnotin⟩ := hall2 x h
      refine ⟨fun hb => (hmcp hb).trans hs1, hfb, hin, ?_⟩
      intro hmem
      apply hnotin
      rw [hu1]
      exact List.mem_append_left _ hmem

lemma not_mem_of_contains_false {l : List String} {a : String}
    (h : l.contains a = false) : a ∉ l := by
  simp_all

lemma stepOk_applyHandlerCall (env : SessionEnv) (st : SessionState) (c : HandlerCall) :
    StepOk env st (applyHandlerCall env st c) := by
  cases c with
  | onText t =>
    refine ⟨rfl, rfl, rfl, by simp [applyHandlerCall], ⟨[Event.chunk t], rfl⟩,
      ⟨[], (List.append_nil _).symm⟩,
      ⟨[], (List.append_nil _).symm, by simp [applyHandlerCall], by simp, by simp⟩⟩
  | onMessage role content =>
    simp only [applyHandlerCall]
    split
    · refine ⟨rfl, rfl, rfl, by exact Nat.le_refl _, ⟨[Event.messageComplete], rfl⟩,
        ⟨[], (List.append_nil _).symm⟩,
        ⟨[], (List.append_nil _).symm, by simp, by simp, by simp⟩⟩
    · refine ⟨rfl, rfl, rfl, by exact Nat.le_refl _,
        ⟨[Event.products st.productsToDisplay, Event.messageComplete], by simp⟩,
        ⟨[], (List.append_nil _).symm⟩,
        ⟨[], (List.append_nil _).symm, by simp, by simp, by simp⟩⟩
  | onToolUse toolUseId toolName toolInput =>
    simp only [applyHandlerCall]
    split
    · refine ⟨rfl, rfl, rfl, by exact Nat.le_refl _, ⟨[], (List.append_nil _).symm⟩,
        ⟨[], (List.append_nil _).symm⟩,
        ⟨[], (List.append_nil _).symm, by simp, by simp, by simp⟩⟩
    · rename_i hcon
      have hcon' : st.usedToolCalls.contains (toolCallKey toolName toolInput) = false :=
        Bool.not_eq_true _ ▸ Bool.eq_false_iff.mpr hcon
      have hnotmem := not_mem_of_contains_false hcon'
      have hspec0 := dispatchTool_call_spec env st.useFallbackTools st.mcpPresent st.shop
        toolName toolInput
      rcases hd : dispatchTool env st.useFallbackTools st.mcpPresent st.shop
        toolName toolInput with ⟨o, bc⟩
      have hspec : ∀ x ∈ bc.toList,
          (x.backend = Backend.mcp → x.shop = st.shop) ∧
          (x.backend = Backend.fallback → x.shop = env.requestShop) ∧
          keyOf x = toolCallKey toolName toolInput := by
        rw [hd] at hspec0
        exact hspec0
      have hcalls : ∀ x ∈ bc.toList,
          (x.backend = Backend.mcp → x.shop = st.shop) ∧
          (x.backend = Backend.fallback → x.shop = env.requestShop) ∧
          keyOf x ∈ st.usedToolCalls ++ [toolCallKey toolName toolInput] ∧
          keyOf x ∉ st.usedToolCalls := by
        intro x hx
        obtain ⟨hmcp, hfb, hk⟩ := hspec x hx
        refine ⟨hmcp, hfb, ?_, ?_⟩
        · rw [hk]
          exact List.mem_append_right _ (List.mem_singleton.mpr rfl)
        · rw [hk]
          exact hnotmem
      have hlenle : st.toolIterationCount + bc.toList.length ≤ st.toolIterationCount + 1 := by
        have : bc.toList.length ≤ 1 := by cases bc <;> simp
        omega
      have hnd : (bc.toList.map keyOf).Nodup := by cases bc <;> simp
      cases o with
      | success resultContent =>
        refine ⟨rfl, rfl, rfl, by exact Nat.le_succ _,
          ⟨[Event.toolUse toolName toolInput], rfl⟩,
          ⟨[toolCallKey toolName toolInput], rfl⟩,
          ⟨bc.toList, rfl, by exact hlenle, hnd, hcalls⟩⟩
      | errorResult et ed =>
        refine ⟨rfl, rfl, rfl, by exact Nat.le_succ _,
          ⟨[Event.toolUse toolName toolInput], rfl⟩,
          ⟨[toolCallKey toolName toolInput], rfl⟩,
          ⟨bc.toList, rfl, by exact hlenle, hnd, hcalls⟩⟩
      | thrown m =>
        refine ⟨rfl, rfl, rfl, by exact Nat.le_succ _,
          ⟨[Event.toolUse toolName toolInput], rfl⟩,
          ⟨[toolCallKey toolName toolInput], rfl⟩,
          ⟨bc.toList, rfl, by exact hlenle, hnd, hcalls⟩⟩

lemma stepOk_foldl (env : SessionEnv) :
    ∀ (calls : List HandlerCall) (st : SessionState),
      StepOk env st (calls.foldl (applyHandlerCall env) st) := by
  intro calls
  induction calls with
  | nil => intro st; exact stepOk_refl env st
  | cons c rest ih =>
    intro st
    exact stepOk_trans (stepOk_applyHandlerCall env st c) (ih (applyHandlerCall env st c))

lemma stepOk_runRound (env : SessionEnv) (st : SessionState) (round : List StreamChunk) :
    StepOk env st (runRound env st round) :=
  stepOk_foldl env _ st

lemma stepOk_capFallback (env : SessionEnv) (st : SessionState) :
    StepOk env st (capFallback st) :=
  ⟨rfl, rfl, rfl, Nat.le_refl _,
   ⟨[Event.chunk fallbackApologyText, Event.messageComplete], rfl⟩,
   ⟨[], (List.append_nil _).symm⟩,
   ⟨[], (List.append_nil _).symm, by simp, by simp, by simp⟩⟩

lemma stepOk_resetContinuation (env : SessionEnv) (st : SessionState) (b : Bool) :
    StepOk env st { st with needsContinuation := b } :=
  ⟨rfl, rfl, rfl, Nat.le_refl _,
   ⟨[], (List.append_nil _).symm⟩,
   ⟨[], (List.append_nil _).symm⟩,
   ⟨[], (List.append_nil _).symm, by simp, by simp, by simp⟩⟩

lemma stepOk_sessionLoop (env : SessionEnv) :
    ∀ (rounds : List (List StreamChunk)) (st : SessionState),
      StepOk env st (sessionLoop env rounds st) := by
  intro rounds
  induction rounds with
  | nil => intro st; exact stepOk_refl env st
  | cons r rest ih =>
    intro st
    simp only [sessionLoop]
    split
    · exact stepOk_trans (stepOk_resetContinuation env st false) (stepOk_capFallback env _)
    · split
      · exact stepOk_trans (stepOk_resetContinuation env st false)
          (stepOk_trans (stepOk_runRound env _ r) (ih _))
      · exact stepOk_trans (stepOk_resetContinuation env st false) (stepOk_runRound env _ r)

lemma stepOk_handleChatSession (env : SessionEnv) (mcp : McpEnv) (shop : Option String)
    (conversationId userMessage : String) (priorStore : Store)
    (rounds : List (List StreamChunk)) :
    StepOk env (initialSessionState env mcp shop conversationId userMessage priorStore)
      (handleChatSession env mcp shop conversationId userMessage priorStore rounds) := by
  refine stepOk_trans (stepOk_sessionLoop env rounds _) ?_
  exact ⟨rfl, rfl, rfl, by simp [handleChatSession],
    ⟨[Event.endTurn], rfl⟩,
    ⟨[], (List.append_nil _).symm⟩,
    ⟨[], (List.append_nil _).symm, by simp [handleChatSession], by simp, by simp⟩⟩

/-! ## Lemmas: loop counter bounds -/

lemma applyHandlerCall_count (env : SessionEnv) (st : SessionState) (c : HandlerCall) :
    (applyHandlerCall env st c).toolIterationCount ≤ st.toolIterationCount + 1 ∧
    (isToolUseCall c = false →
      (applyHandlerCall env st c).toolIterationCount = st.toolIterationCount) := by
  cases c with
  | onText t => exact ⟨by simp [applyHandlerCall], fun _ => rfl⟩
  | onMessage role content =>
    constructor
    · simp only [applyHandlerCall]
      split <;> simp
    · intro _
      simp only [applyHandlerCall]
      split <;> rfl
  | onToolUse toolUseId toolName toolInput =>
    constructor
    · simp only [applyHandlerCall]
      split
      · simp
      · rcases hd : dispatchTool env st.useFallbackTools st.mcpPresent st.shop
          toolName toolInput with ⟨o, bc⟩
        cases o <;> simp
    · intro h
      simp [isToolUseCall] at h

lemma foldl_count_le (env : SessionEnv) :
    ∀ (calls : List HandlerCall) (st : SessionState),
      (calls.foldl (applyHandlerCall env) st).toolIterationCount ≤
        st.toolIterationCount + countOnToolUse calls := by
  intro calls
  induction calls with
  | nil => intro st; simp [countOnToolUse]
  | cons c rest ih =>
    intro st
    simp only [List.foldl_cons]
    have h1 := applyHandlerCall_count env st c
    have h2 := ih (applyHandlerCall env st c)
    cases hc : isToolUseCall c with
    | false =>
      rw [h1.2 hc] at h2
      have hcnt : countOnToolUse (c :: rest) = countOnToolUse rest := by
        simp [countOnToolUse, List.filter_cons, hc]
      rw [hcnt]
      exact h2
    | true =>
      have hcnt : countOnToolUse (c :: rest) = countOnToolUse rest + 1 := by
        simp [countOnToolUse, List.filter_cons, hc]
      rw [hcnt]
      have := h1.1
      omega

lemma sessionLoop_count_le (env : SessionEnv) :
    ∀ (rounds : List (List StreamChunk)) (st : SessionState),
      st.toolIterationCount < MAX_TOOL_ITERATIONS →
      (∀ r ∈ rounds, countOnToolUse (streamConversation env.parseOk r).calls ≤ 1) →
      (sessionLoop env rounds st).toolIterationCount ≤ MAX_TOOL_ITERATIONS := by
  intro rounds
  induction rounds with
  | nil =>
    intro st h _
    exact Nat.le_of_lt h
  | cons r rest ih =>
    intro st h hr
    simp only [sessionLoop]
    split
    · simpa using Nat.le_of_lt h
    · have hround := foldl_count_le env (streamConversation env.parseOk r).calls
        { st with needsContinuation := false }
      have hr1 : countOnToolUse (streamConversation env.parseOk r).calls ≤ 1 :=
        hr r (List.mem_cons_self r rest)
      have hst0 : ({ st with needsContinuation := false } : SessionState).toolIterationCount =
          st.toolIterationCount := rfl
      have hb : (runRound env { st with needsContinuation := false } r).toolIterationCount ≤
          MAX_TOOL_ITERATIONS := by
        unfold runRound
        omega
      split
      · rename_i hcond
        have hlt : (runRound env { st with needsContinuation := false } r).toolIterationCount <
            MAX_TOOL_ITERATIONS := by
          have hc2 := (Bool.and_eq_true _ _).mp hcond
          exact of_decide_eq_true hc2.2
        exact ih _ hlt fun r' h' => hr r' (List.mem_cons_of_mem _ h')
      · exact hb

/-! ## Session-level consequences -/

lemma handleChatSession_events_getLast (env : SessionEnv) (mcp : McpEnv)
    (shop : Option String) (conversationId userMessage : String) (priorStore : Store)
    (rounds : List (List StreamChunk)) :
    (handleChatSession env mcp shop conversationId userMessage priorStore rounds).events.getLast? =
      some Event.endTurn := by
  simp only [handleChatSession]
  exact List.getLast?_concat _

/-- C9: the first event emitted on the push channel of a session is always
the identifier event carrying the conversation id; every later event
is appended after it. -/
theorem c9_id_event_first (env : SessionEnv) (mcp : McpEnv) (shop : Option String)
    (conversationId userMessage : String) (priorStore : Store)
    (rounds : List (List StreamChunk)) :
    (handleChatSession env mcp shop conversationId userMessage priorStore rounds).events.head? =
      some (Event.id conversationId) := by
  obtain ⟨-, -, -, -, ⟨evs, hevs⟩, -, -⟩ :=
    stepOk_handleChatSession env mcp shop conversationId userMessage priorStore rounds
  have hinit : (initialSessionState env mcp shop conversationId userMessage priorStore).events =
      [Event.id conversationId] := rfl
  rw [hinit] at hevs
  rw [hevs]
  rfl

/-- C1 (amended): the session has no per-tool invocation cap; a single
total counter (cap 3) is checked between model rounds, so when every
round requests at most one tool call the total invocation count — and
with it the number of backend executions — never exceeds 3, and the
session terminates with an end-of-turn event (the synthesized-fallback
branch of the cap check is not what ends a capped session; see the
counterexample). -/
theorem c1_loop_cap (env : SessionEnv) (mcp : McpEnv) (shop : Option String)
    (conversationId userMessage : String) (priorStore : Store)
    (rounds : List (List StreamChunk))
    (h : ∀ r ∈ rounds, countOnToolUse (streamConversation env.parseOk r).calls ≤ 1) :
    (handleChatSession env mcp shop conversationId userMessage priorStore
        rounds).toolIterationCount ≤ MAX_TOOL_ITERATIONS ∧
    (handleChatSession env mcp shop conversationId userMessage priorStore
        rounds).backendCalls.length ≤
      (handleChatSession env mcp shop conversationId userMessage priorStore
        rounds).toolIterationCount ∧
    (handleChatSession env mcp shop conversationId userMessage priorStore
        rounds).events.getLast? = some Event.endTurn := by
  refine ⟨?_, ?_, handleChatSession_events_getLast env mcp shop conversationId userMessage
    priorStore rounds⟩
  · have hcount : (handleChatSession env mcp shop conversationId userMessage priorStore
        rounds).toolIterationCount =
        (sessionLoop env rounds
          (initialSessionState env mcp shop conversationId userMessage
            priorStore)).toolIterationCount := rfl
    rw [hcount]
    refine sessionLoop_count_le env rounds _ ?_ h
    show (0 : Nat) < MAX_TOOL_ITERATIONS
    decide
  · obtain ⟨-, -, -, -, -, -, ⟨calls, hbc, hlen, -, -⟩⟩ :=
      stepOk_handleChatSession env mcp shop conversationId userMessage priorStore rounds
    have hinitb : (initialSessionState env mcp shop conversationId userMessage
        priorStore).backendCalls = [] := rfl
    have hinitc : (initialSessionState env mcp shop conversationId userMessage
        priorStore).toolIterationCount = 0 := rfl
    rw [hinitb, List.nil_append] at hbc
    rw [hinitc] at hlen
    rw [hbc]
    omega

theorem c1_loop_cap_witness :
    (∀ r ∈ [sampleToolRound "a"],
      countOnToolUse (streamConversation sampleEnv.parseOk r).calls ≤ 1) ∧
    ((handleChatSession sampleEnv sampleMcpDown none "conv1" "hello" ⟨[]⟩
        [sampleToolRound "a"]).toolIterationCount ≤ MAX_TOOL_ITERATIONS ∧
     (handleChatSession sampleEnv sampleMcpDown none "conv1" "hello" ⟨[]⟩
        [sampleToolRound "a"]).backendCalls.length ≤
       (handleChatSession sampleEnv sampleMcpDown none "conv1" "hello" ⟨[]⟩
        [sampleToolRound "a"]).toolIterationCount ∧
     (handleChatSession sampleEnv sampleMcpDown none "conv1" "hello" ⟨[]⟩
        [sampleToolRound "a"]).events.getLast? = some Event.endTurn) :=
  ⟨by decide,
   c1_loop_cap sampleEnv sampleMcpDown none "conv1" "hello" ⟨[]⟩ [sampleToolRound "a"]
     (by decide)⟩

/-- C1 counterexample: in a session whose model requests the catalog
search with three distinct inputs, the per-tool execution count of
`search_shop_catalog` reaches 3, exceeding the claimed per-tool cap
M = 2; and although the total counter reaches the loop cap, the
session ends with `end_turn` without ever emitting the synthesized
fallback assistant message. -/
theorem c1_counterexample :
    ¬ ((sampleCapRun.backendCalls.filter fun c =>
        c.toolName == "search_shop_catalog").length ≤ 2) ∧
    sampleCapRun.toolIterationCount = MAX_TOOL_ITERATIONS ∧
    Event.chunk fallbackApologyText ∉ sampleCapRun.events ∧
    sampleCapRun.events.getLast? = some Event.endTurn := by
  decide

lemma filter_keyOf_le_one :
    ∀ (l : List BackendCall), (l.map keyOf).Nodup →
      ∀ key, (l.filter fun c => keyOf c == key).length ≤ 1 := by
  intro l
  induction l with
  | nil =>
    intro _ key
    simp
  | cons c rest ih =>
    intro hnd key
    simp only [List.map_cons] at hnd
    obtain ⟨hnotin, hndr⟩ := List.nodup_cons.mp hnd
    rw [List.filter_cons]
    by_cases hc : (keyOf c == key) = true
    · rw [if_pos hc]
      have hrest : rest.filter (fun x => keyOf x == key) = [] := by
        apply List.filter_eq_nil_iff.mpr
        intro x hx hxk
        have hkey : keyOf x = key := by simpa using hxk
        have hkeyc : keyOf c = key := by simpa using hc
        have hmem : keyOf c ∈ rest.map keyOf := by
          rw [hkeyc, ← hkey]
          exact List.mem_map_of_mem keyOf hx
        exact hnotin hmem
      rw [hrest]
      simp
    · rw [if_neg hc]
      exact ih hndr key

/-- C3: within one session, each tool-call fingerprint (tool name plus
serialized input) reaches a backend at most once; a request whose
fingerprint was already seen is answered by appending and persisting
the synthesized duplicate-blocked tool-result turn and marking
continuation, with no backend contact and no change to any other
session field. -/
theorem c3_duplicate_execution_once (env : SessionEnv) (mcp : McpEnv)
    (shop : Option String) (conversationId userMessage : String) (priorStore : Store)
    (rounds : List (List StreamChunk)) (key : String) :
    ((handleChatSession env mcp shop conversationId userMessage priorStore
        rounds).backendCalls.filter fun c => keyOf c == key).length ≤ 1 ∧
    (∀ (st : SessionState) (toolUseId : Option String) (toolName toolInput : String),
      st.usedToolCalls.contains (toolCallKey toolName toolInput) = true →
      applyHandlerCall env st (.onToolUse toolUseId toolName toolInput) =
        { st with
            history := st.history ++ [duplicateBlockedMessage toolUseId],
            store := saveMessage st.store st.conversationId "user"
              (serializeHistContent (duplicateBlockedMessage toolUseId).content),
            needsContinuation := true }) := by
  constructor
  · obtain ⟨-, -, -, -, -, -, ⟨calls, hbc, -, hnd, -⟩⟩ :=
      stepOk_handleChatSession env mcp shop conversationId userMessage priorStore rounds
    have hinitb : (initialSessionState env mcp shop conversationId userMessage
        priorStore).backendCalls = [] := rfl
    rw [hinitb, List.nil_append] at hbc
    rw [hbc]
    exact filter_keyOf_le_one calls hnd key
  · intro st toolUseId toolName toolInput hdup
    simp only [applyHandlerCall]
    split
    · rfl
    · rename_i hfalse
      exact absurd hdup hfalse

theorem c3_duplicate_execution_once_witness :
    ((handleChatSession sampleEnv sampleMcpDown none "conv1" "hello" ⟨[]⟩
        [sampleToolRound "a", sampleToolRound "a"]).backendCalls.filter fun c =>
      keyOf c == toolCallKey "search_shop_catalog" "a").length ≤ 1 ∧
    ({ sampleState with
        usedToolCalls := [toolCallKey "search_shop_catalog" "a"] } :
        SessionState).usedToolCalls.contains (toolCallKey "search_shop_catalog" "a") = true ∧
    applyHandlerCall sampleEnv
        { sampleState with usedToolCalls := [toolCallKey "search_shop_catalog" "a"] }
        (.onToolUse (some "id1") "search_shop_catalog" "a") =
      { { sampleState with usedToolCalls := [toolCallKey "search_shop_catalog" "a"] } with
          history := ({ sampleState with
            usedToolCalls := [toolCallKey "search_shop_catalog" "a"] } :
              SessionState).history ++ [duplicateBlockedMessage (some "id1")],
          store := saveMessage ({ sampleState with
            usedToolCalls := [toolCallKey "search_shop_catalog" "a"] } :
              SessionState).store ({ sampleState with
            usedToolCalls := [toolCallKey "search_shop_catalog" "a"] } :
              SessionState).conversationId "user"
            (serializeHistContent (duplicateBlockedMessage (some "id1")).content),
          needsContinuation := true } :=
  ⟨(c3_duplicate_execution_once sampleEnv sampleMcpDown none "conv1" "hello" ⟨[]⟩
      [sampleToolRound "a", sampleToolRound "a"]
      (toolCallKey "search_shop_catalog" "a")).1,
   by decide,
   (c3_duplicate_execution_once sampleEnv sampleMcpDown none "conv1" "hello" ⟨[]⟩
      [sampleToolRound "a", sampleToolRound "a"]
      (toolCallKey "search_shop_catalog" "a")).2
     { sampleState with usedToolCalls := [toolCallKey "search_shop_catalog" "a"] }
     (some "id1") "search_shop_catalog" "a" (by decide)⟩

/-- C6: an exception raised while executing a tool is caught and
converted into a structured `execution_error` outcome: the handler
step equals the tool-error path applied to the bookkept state, the
resulting history gains the structured error turn, and the session
still runs to completion, ending its event stream with `end_turn`
rather than aborting. -/
theorem c6_execution_error_continues (env : SessionEnv) (st : SessionState)
    (toolUseId : Option String) (toolName toolInput m : String) (bc : Option BackendCall)
    (hnew : st.usedToolCalls.contains (toolCallKey toolName toolInput) = false)
    (hthrow : dispatchTool env st.useFallbackTools st.mcpPresent st.shop toolName toolInput =
      (.thrown m, bc)) :
    applyHandlerCall env st (.onToolUse toolUseId toolName toolInput) =
      handleToolError "execution_error" m toolUseId
        { st with
            usedToolCalls := st.usedToolCalls ++ [toolCallKey toolName toolInput],
            toolIterationCount := st.toolIterationCount + 1,
            events := st.events ++ [Event.toolUse toolName toolInput],
            backendCalls := st.backendCalls ++ bc.toList } ∧
    (applyHandlerCall env st (.onToolUse toolUseId toolName toolInput)).history =
      st.history ++ [errorTurn "execution_error" m toolUseId] ∧
    ∀ (mcp : McpEnv) (shop : Option String) (conversationId userMessage : String)
      (priorStore : Store) (rounds : List (List StreamChunk)),
      (handleChatSession env mcp shop conversationId userMessage priorStore
          rounds).events.getLast? = some Event.endTurn := by
  have h1 : applyHandlerCall env st (.onToolUse toolUseId toolName toolInput) =
      handleToolError "execution_error" m toolUseId
        { st with
            usedToolCalls := st.usedToolCalls ++ [toolCallKey toolName toolInput],
            toolIterationCount := st.toolIterationCount + 1,
            events := st.events ++ [Event.toolUse toolName toolInput],
            backendCalls := st.backendCalls ++ bc.toList } := by
    simp only [applyHandlerCall]
    split
    · rename_i htrue
      rw [hnew] at htrue
      exact Bool.noConfusion htrue
    · rw [hthrow]
  refine ⟨h1, ?_, ?_⟩
  · rw [h1]
    simp
  · intro mcp shop conversationId userMessage priorStore rounds
    exact handleChatSession_events_getLast env mcp shop conversationId userMessage
      priorStore rounds

theorem c6_execution_error_continues_witness :
    sampleState.usedToolCalls.contains (toolCallKey "lookup_order" "x") = false ∧
    dispatchTool sampleEnv sampleState.useFallbackTools sampleState.mcpPresent
        sampleState.shop "lookup_order" "x" =
      (.thrown "No tool execution method available", none) ∧
    (applyHandlerCall sampleEnv sampleState (.onToolUse (some "id1") "lookup_order" "x")).history =
      sampleState.history ++
        [errorTurn "execution_error" "No tool execution method available" (some "id1")] :=
  ⟨by decide, by decide,
   (c6_execution_error_continues sampleEnv sampleState (some "id1") "lookup_order" "x"
      "No tool execution method available" none (by decide) (by decide)).2.1⟩

lemma handleChatSession_shop_none (env : SessionEnv) (mcp : McpEnv)
    (conversationId userMessage : String) (priorStore : Store)
    (rounds : List (List StreamChunk)) :
    (handleChatSession env mcp none conversationId userMessage priorStore rounds).shop =
      "restorair.myshopify.com" ∧
    ∀ c ∈ (handleChatSession env mcp none conversationId userMessage priorStore
        rounds).backendCalls,
      (c.backend = Backend.mcp → c.shop = "restorair.myshopify.com") ∧
      (c.backend = Backend.fallback → c.shop = env.requestShop) := by
  obtain ⟨hshop, -, -, -, -, -, ⟨calls, hbc, -, -, hall⟩⟩ :=
    stepOk_handleChatSession env mcp none conversationId userMessage priorStore rounds
  have hinitshop : (initialSessionState env mcp none conversationId userMessage
      priorStore).shop = "restorair.myshopify.com" := rfl
  have hinitb : (initialSessionState env mcp none conversationId userMessage
      priorStore).backendCalls = [] := rfl
  constructor
  · rw [hshop, hinitshop]
  · intro c hc
    rw [hbc, hinitb, List.nil_append] at hc
    obtain ⟨hmcp, hfb, -, -⟩ := hall c hc
    exact ⟨fun hb => (hmcp hb).trans hinitshop, hfb⟩

/-- C10 (amended): a submit-message request that carries a message but
omits the shop field is not rejected: the push channel opens and the
session runs with the hardcoded shop identifier silently substituted
as the session shop, which tool discovery and MCP tool execution
target (the MCP client is built from it); fallback catalog-search
execution, however, authenticates through the app proxy of the inbound
request and targets the request-authenticated shop, which the
substitution does not affect. -/
theorem c10_default_shop (env : SessionEnv) (mcp : McpEnv)
    (msg : String) (cidOpt ptOpt : Option String) (now : String) (priorStore : Store)
    (rounds : List (List StreamChunk)) (h : msg ≠ "") :
    ∃ result,
      handleChatRequest env mcp ⟨some msg, cidOpt, ptOpt, none⟩ now priorStore rounds =
        .sseStream result ∧
      result.shop = "restorair.myshopify.com" ∧
      (∀ c ∈ result.backendCalls,
        c.backend = Backend.mcp → c.shop = "restorair.myshopify.com") ∧
      (∀ c ∈ result.backendCalls,
        c.backend = Backend.fallback → c.shop = env.requestShop) := by
  have hm : jsTruthyStr (some msg) = true := by
    simp [jsTruthyStr]
    exact h
  refine ⟨handleChatSession env mcp none
    (match cidOpt with
     | some c => if c == "" then now else c
     | none => now) msg priorStore rounds, ?_, ?_, ?_, ?_⟩
  · simp [handleChatRequest, hm]
  · exact (handleChatSession_shop_none env mcp _ msg priorStore rounds).1
  · intro c hc
    exact ((handleChatSession_shop_none env mcp _ msg priorStore rounds).2 c hc).1
  · intro c hc
    exact ((handleChatSession_shop_none env mcp _ msg priorStore rounds).2 c hc).2

theorem c10_default_shop_witness :
    ("hello" : String) ≠ "" ∧
    ∃ result,
      handleChatRequest sampleEnvOther sampleMcpDown ⟨some "hello", none, none, none⟩ "1"
          ⟨[]⟩ [sampleToolRound "a"] = .sseStream result ∧
      result.shop = "restorair.myshopify.com" ∧
      (∀ c ∈ result.backendCalls,
        c.backend = Backend.mcp → c.shop = "restorair.myshopify.com") ∧
      (∀ c ∈ result.backendCalls,
        c.backend = Backend.fallback → c.shop = sampleEnvOther.requestShop) :=
  ⟨by decide,
   c10_default_shop sampleEnvOther sampleMcpDown "hello" none none "1" ⟨[]⟩
     [sampleToolRound "a"] (by decide)⟩

/-- C10 counterexample: a shopless request whose inbound request
authenticates as `other-shop.myshopify.com` gets the hardcoded session
shop substituted, yet the executed fallback catalog search contacts
the request-authenticated shop — so not all tool execution targets the
fixed shop, refuting the claim as stated. -/
theorem c10_counterexample :
    sampleShopRun.shop = "restorair.myshopify.com" ∧
    (⟨Backend.fallback, "other-shop.myshopify.com", "search_shop_catalog", "a"⟩ :
        BackendCall) ∈ sampleShopRun.backendCalls ∧
    ¬ ∀ c ∈ sampleShopRun.backendCalls, c.shop = "restorair.myshopify.com" := by
  decide

end RaChat
